import Mathlib

/-!
Shallow embedding of the dive-computer core from this repository.

The crate library `src/lib.rs` defines the `DiveComputer` state machine that
all three entry-point binaries (`bin/simple.rs`, `bin/interrupts.rs`,
`bin/rtic.rs`) link against; it is embedded here field by field.  Machine
integers are modelled as `Int`/`Nat` (u32 values that the code keeps in
range by clamping/saturating are `Int` with their range proved, unsigned
counters are `Nat`); Rust `i32` division is `Int.tdiv` (truncation toward
zero); the fallible `change_depth` (it divides by the computed tick
frequency, which can be zero) returns `Option`.

`fugit` unit conversions used by `change_depth` in `src/lib.rs`:
`MicrosDurationU32::into_rate() : HertzU32` is `1000000 / micros`
(integer division), and `interval.convert()` from microseconds to the
whole-second `edt` field is `micros / 1000000` (integer division).

The button interrupt handler `IO_IRQ_BANK0` of `src/bin/interrupts.rs`
(identical logic to `button_handler` in `src/bin/rtic.rs`) is embedded as a
transition function on the scheduler state: the single shared
`LAST_TRIGGERED` timestamp plus a per-button count of dispatched commands.
-/

namespace DiveModel

/-- Measurement unit, `enum Unit` of `src/lib.rs`. -/
inductive MeasureUnit where
  | Metric
  | Imperial
deriving DecidableEq, Repr

/-- Alarm level, `enum Alarm` of `src/lib.rs`. -/
inductive Alarm where
  | High
  | Medium
  | Low
  | None
deriving DecidableEq, Repr

def MAX_DEPTH : ℤ := 40000

/-- Max safe ascend rate in m per minute (`MAX_SAFE_ASCEND_RATE`, u32 in `src/lib.rs`). -/
def MAX_SAFE_ASCEND_RATE : ℕ := 15

def MAX_AIR : ℤ := 2000 * 100

def AIR_INCREMENT : ℤ := 500

def RESPIRATORY_MINUTE_VOLUME_CL : ℕ := 1200

def RESPIRATORY_SECOND_VOLUME_CL : ℕ := RESPIRATORY_MINUTE_VOLUME_CL / 60

/-- `gas_rate_in_cl` of `src/lib.rs`: gas rate per second in centiliter for a
depth in meters, `(RESPIRATORY_SECOND_VOLUME_CL * (100 + 10 * depth_in_m)) / 100`. -/
def gas_rate_in_cl (depth_in_m : ℕ) : ℕ :=
  let ambient_pressure_in_cb := 100 + 10 * depth_in_m
  RESPIRATORY_SECOND_VOLUME_CL * ambient_pressure_in_cb / 100

/-- `gas_to_surface_in_cl` of `src/lib.rs`: the `for depth in 0..depth_in_m`
accumulation loop, embedded as a left fold over `List.range`. -/
def gas_to_surface_in_cl (depth_in_m : ℕ) : ℕ :=
  let secs_to_ascend_1m := 60 / MAX_SAFE_ASCEND_RATE
  (List.range depth_in_m).foldl (fun gas depth => gas + gas_rate_in_cl depth * secs_to_ascend_1m) 0

/-- `struct DiveComputer` of `src/lib.rs`: `depth` in millimeters (u32, held in
i32 range by the clamp in `change_depth`), `rate` in millimeter per minute
(i32), `air` in centiliters (u32), `edt` elapsed dive time in whole seconds
(`SecsDurationU64`). -/
structure DiveComputer where
  unit : MeasureUnit
  depth : ℤ
  rate : ℤ
  air : ℤ
  edt : ℕ
deriving DecidableEq, Repr

namespace DiveComputer

/-- `DiveComputer::new` of `src/lib.rs`. -/
def new : DiveComputer :=
  { unit := .Metric, air := 5000, depth := 0, edt := 0, rate := 0 }

/-- `DiveComputer::get_alarm` of `src/lib.rs`: three early returns, first
match wins. -/
def get_alarm (s : DiveComputer) : Alarm :=
  if (gas_to_surface_in_cl (s.depth.toNat / 1000) : ℤ) > s.air then .High
  else if s.rate < -(MAX_SAFE_ASCEND_RATE : ℤ) then .Medium
  else if s.depth > MAX_DEPTH then .Low
  else .None

/-- `DiveComputer::fill_air` of `src/lib.rs`: only at the surface, add
`AIR_INCREMENT` then cap at `MAX_AIR`. -/
def fill_air (s : DiveComputer) : DiveComputer :=
  if s.depth = 0 then
    let a := s.air + AIR_INCREMENT
    { s with air := if a > MAX_AIR then MAX_AIR else a }
  else s

/-- `DiveComputer::increase_rate` of `src/lib.rs`: add 1, cap at 50. -/
def increase_rate (s : DiveComputer) : DiveComputer :=
  let r := s.rate + 1
  { s with rate := if r > 50 then 50 else r }

/-- `DiveComputer::decrease_rate` of `src/lib.rs`: only when `depth > 0`,
subtract 1 and floor at -50. -/
def decrease_rate (s : DiveComputer) : DiveComputer :=
  if s.depth > 0 then
    let r := s.rate - 1
    { s with rate := if r < -50 then -50 else r }
  else s

/-- `DiveComputer::change_depth` of `src/lib.rs` with `interval` in
microseconds (`MicrosDurationU32`).  `hz = interval.into_rate()` is
`1000000 / interval`; a zero interval makes that conversion divide by zero
and a zero `hz` makes `rate * 1000 / (60 * hz)` divide by zero, both Rust
panics, modelled as `none`.  Otherwise: truncated i32 division for the depth
delta, clamp of the new depth to `[0, i32::MAX]`, and in the underwater
branch the whole-second edt increment (`interval.convert()`, truncating) and
the saturating air subtraction. -/
def change_depth (s : DiveComputer) (interval : ℕ) : Option DiveComputer :=
  if interval = 0 then none
  else
    let hz : ℕ := 1000000 / interval
    if hz = 0 then none
    else
      let rate_in_mm_per_interval : ℤ := (s.rate * 1000).tdiv (60 * (hz : ℤ))
      let depth1 : ℤ := max 0 (min (s.depth + rate_in_mm_per_interval) (2 ^ 31 - 1))
      if depth1 = 0 then
        some { s with depth := depth1, rate := 0 }
      else
        some { s with
          depth := depth1,
          edt := s.edt + interval / 1000000,
          air := max (s.air - (gas_rate_in_cl (depth1.toNat / 1000) / hz : ℕ)) 0 }

/-- `DiveComputer::toggle_unit` of `src/lib.rs`. -/
def toggle_unit (s : DiveComputer) : DiveComputer :=
  { s with unit := if s.unit = .Imperial then .Metric else .Imperial }

end DiveComputer

/-- States reachable from `DiveComputer.new` by the five public operations;
`change_depth` only contributes a step when it does not panic (the valid
intervals). -/
inductive Reachable : DiveComputer → Prop where
  | init : Reachable DiveComputer.new
  | fill {s} : Reachable s → Reachable s.fill_air
  | inc {s} : Reachable s → Reachable s.increase_rate
  | dec {s} : Reachable s → Reachable s.decrease_rate
  | toggle {s} : Reachable s → Reachable s.toggle_unit
  | tick {s i s1} : Reachable s → s.change_depth i = some s1 → Reachable s1

theorem gas_to_surface_in_cl_succ (d : ℕ) :
    gas_to_surface_in_cl (d + 1) = gas_to_surface_in_cl d + gas_rate_in_cl d * 4 := by
  simp [gas_to_surface_in_cl, List.range_succ, MAX_SAFE_ASCEND_RATE]

/-- C5: the gas-consumption model is reproduced exactly: for every depth `d`
in meters, `gas_rate_in_cl d = 20 * (100 + 10 * d) / 100` and
`gas_to_surface_in_cl d` is the sum over depths `0..d-1` of
`gas_rate_in_cl depth * 4`; in particular `gas_rate_in_cl 0 = 20`,
`gas_rate_in_cl 10 = 40`, `gas_to_surface_in_cl 0 = 0` and
`gas_to_surface_in_cl 10 = 1160`. -/
theorem C5_gas_model :
    (∀ d : ℕ, gas_rate_in_cl d = 20 * (100 + 10 * d) / 100) ∧
    (∀ d : ℕ, gas_to_surface_in_cl d = ∑ k ∈ Finset.range d, gas_rate_in_cl k * 4) ∧
    gas_rate_in_cl 0 = 20 ∧ gas_rate_in_cl 10 = 40 ∧
    gas_to_surface_in_cl 0 = 0 ∧ gas_to_surface_in_cl 10 = 1160 := by
  refine ⟨fun d => rfl, fun d => ?_, by decide, by decide, by decide, by decide⟩
  induction d with
  | zero => decide
  | succ n ih => rw [gas_to_surface_in_cl_succ, Finset.sum_range_succ, ih]

/-- C7: `toggle_unit` is its own inverse: applying it twice restores the
original state (in particular the original unit), one application leaves every
stored SI value (`depth`, `rate`, `air`, `edt`) bit-identical, and it changes
the unit field. -/
theorem C7_toggle_unit_involution (s : DiveComputer) :
    s.toggle_unit.toggle_unit = s ∧
    s.toggle_unit.depth = s.depth ∧ s.toggle_unit.rate = s.rate ∧
    s.toggle_unit.air = s.air ∧ s.toggle_unit.edt = s.edt ∧
    s.toggle_unit.unit ≠ s.unit := by
  obtain ⟨u, d, r, a, e⟩ := s
  cases u <;> simp [DiveComputer.toggle_unit]

/-- C4: the alarm is derived in strict priority order with first match
winning: `High` iff `gas_to_surface_in_cl (depth in meters) > air`, `Medium`
iff not that and `rate < -15`, `Low` iff neither and `depth > 40000` mm,
`None` otherwise; in particular any state satisfying both the High and the
Medium conditions reports `High`. -/
theorem C4_alarm_priority (s : DiveComputer) :
    (s.get_alarm = .High ↔ (gas_to_surface_in_cl (s.depth.toNat / 1000) : ℤ) > s.air) ∧
    (s.get_alarm = .Medium ↔
      ¬((gas_to_surface_in_cl (s.depth.toNat / 1000) : ℤ) > s.air) ∧ s.rate < -15) ∧
    (s.get_alarm = .Low ↔
      ¬((gas_to_surface_in_cl (s.depth.toNat / 1000) : ℤ) > s.air) ∧
      ¬(s.rate < -15) ∧ s.depth > 40000) ∧
    (s.get_alarm = .None ↔
      ¬((gas_to_surface_in_cl (s.depth.toNat / 1000) : ℤ) > s.air) ∧
      ¬(s.rate < -15) ∧ ¬(s.depth > 40000)) ∧
    ((gas_to_surface_in_cl (s.depth.toNat / 1000) : ℤ) > s.air → s.rate < -15 →
      s.get_alarm = .High) := by
  unfold DiveComputer.get_alarm
  simp only [MAX_SAFE_ASCEND_RATE, MAX_DEPTH, Nat.cast_ofNat]
  split_ifs with h1 h2 h3 <;> simp_all

/-- C4 witness: a state 30 m deep with only 500 cL of air (High condition,
since 5880 cL are needed to surface) and rate -20 (Medium condition) reports
`High`. -/
theorem C4_alarm_priority_witness :
    ({ unit := .Metric, depth := 30000, rate := -20, air := 500, edt := 0 } :
      DiveComputer).get_alarm = .High :=
  (C4_alarm_priority _).2.2.2.2 (by decide) (by decide)

theorem fill_air_iterate_new (n : ℕ) :
    DiveComputer.fill_air^[n] DiveComputer.new =
      { DiveComputer.new with air := min (5000 + 500 * (n : ℤ)) 200000 } := by
  induction n with
  | zero => simp [DiveComputer.new]
  | succ n ih =>
    rw [Function.iterate_succ_apply', ih]
    simp only [DiveComputer.fill_air, MAX_AIR, AIR_INCREMENT, DiveComputer.new]
    simp only [if_true, DiveComputer.mk.injEq, true_and, and_true, min_def]
    split_ifs <;> omega

/-- C6: `fill_air` is gated on being at the surface: at `depth = 0` it sets
`air := min (air + 500) 200000` and at `depth > 0` it leaves the state
unchanged; from the starting state (depth 0, rate 0, air 5000) one call
yields air 5500, 390 further calls saturate air at 200000, and air stays
there under one more call. -/
theorem C6_fill_air_gating (s : DiveComputer) :
    (s.depth = 0 → s.fill_air = { s with air := min (s.air + 500) 200000 }) ∧
    (0 < s.depth → s.fill_air = s) ∧
    DiveComputer.new.fill_air.air = 5500 ∧
    (DiveComputer.fill_air^[391] DiveComputer.new).air = 200000 ∧
    (DiveComputer.fill_air^[392] DiveComputer.new).air = 200000 := by
  refine ⟨fun h => ?_, fun h => ?_, by decide,
    by rw [fill_air_iterate_new]; decide, by rw [fill_air_iterate_new]; decide⟩
  · obtain ⟨u, d, r, a, e⟩ := s
    simp only [DiveComputer.fill_air, MAX_AIR, AIR_INCREMENT, h, if_pos]
    split_ifs with hc <;> simp_all [min_def]
    all_goals omega
  · simp only [DiveComputer.fill_air]
    rw [if_neg (by omega)]

/-- C6 witness: the surface branch of `C6_fill_air_gating` instantiated at
the starting state. -/
theorem C6_fill_air_gating_witness :
    DiveComputer.new.fill_air =
      { DiveComputer.new with air := min (DiveComputer.new.air + 500) 200000 } :=
  (C6_fill_air_gating DiveComputer.new).1 rfl

/-- C9: `change_depth` succeeds (no division by zero) exactly for intervals
with `0 < interval ≤ 1000000` microseconds, i.e. at most one second: a
zero interval divides by zero in the rate conversion and any interval
strictly longer than one second truncates `hz` to 0 and then divides by
zero. -/
theorem C9_change_depth_totality (s : DiveComputer) (interval : ℕ) :
    (s.change_depth interval).isSome ↔ 0 < interval ∧ interval ≤ 1000000 := by
  unfold DiveComputer.change_depth
  rcases Nat.eq_zero_or_pos interval with h0 | h0
  · subst h0; simp
  · rw [if_neg (by omega)]
    by_cases h1 : 1000000 / interval = 0
    · rw [if_pos h1]
      have hlt : 1000000 < interval := (Nat.div_eq_zero_iff h0).mp h1
      simp only [Option.isSome_none, Bool.false_eq_true, false_iff]
      omega
    · rw [if_neg h1]
      have hle : interval ≤ 1000000 := by
        rw [Nat.div_eq_zero_iff h0] at h1
        omega
      refine ⟨fun _ => ⟨h0, hle⟩, fun _ => ?_⟩
      dsimp only
      split <;> rfl

/-- C2 counterexample: at the surface with positive rate 5, a valid 10000 µs
tick leaves `depth = 0` and `change_depth` resets the rate to 0, so a
pre-call non-negative rate is not left unchanged (`src/lib.rs` zeroes the
rate unconditionally in the `depth == 0` branch). -/
theorem C2_counterexample :
    ({ unit := .Metric, depth := 0, rate := 5, air := 5000, edt := 0 } :
        DiveComputer).change_depth 10000
      = some { unit := .Metric, depth := 0, rate := 0, air := 5000, edt := 0 } ∧
    (5 : ℤ) ≠ 0 := by
  decide

/-- C2 amended: whenever `change_depth` leaves `depth = 0` the rate is reset
to 0 regardless of its previous sign; in particular a pre-call negative rate
is reset to 0 and `rate ≥ 0` holds immediately after such a call. -/
theorem C2_amended_surface_rate_reset (s : DiveComputer) (i : ℕ) (s1 : DiveComputer)
    (h : s.change_depth i = some s1) (hd : s1.depth = 0) :
    s1.rate = 0 ∧ 0 ≤ s1.rate := by
  simp only [DiveComputer.change_depth] at h
  split_ifs at h with h0 h1 h2
  · rw [Option.some.injEq] at h
    subst h
    exact ⟨rfl, le_refl 0⟩
  · rw [Option.some.injEq] at h
    subst h
    exact absurd hd h2

/-- C2 amended witness: an ascending diver (rate -5) at the surface with a
500 ms tick stays at depth 0 and ends with rate 0. -/
theorem C2_amended_witness :
    ({ unit := .Metric, depth := 0, rate := 0, air := 5000, edt := 0 } :
        DiveComputer).rate = 0 ∧
    (0 : ℤ) ≤ ({ unit := .Metric, depth := 0, rate := 0, air := 5000, edt := 0 } :
        DiveComputer).rate :=
  C2_amended_surface_rate_reset
    { unit := .Metric, depth := 0, rate := -5, air := 5000, edt := 0 } 500000
    { unit := .Metric, depth := 0, rate := 0, air := 5000, edt := 0 }
    (by decide) (by decide)

/-- C3 counterexample: a 500000 µs (half second) tick that takes the diver
from the surface to depth 83 mm leaves `edt` unchanged at 0, although the
claim requires `edt` to increase by exactly the (nonzero) interval: the
`edt` field holds whole seconds and `interval.convert()` truncates the half
second to 0. -/
theorem C3_counterexample :
    ({ unit := .Metric, depth := 0, rate := 10, air := 5000, edt := 0 } :
        DiveComputer).change_depth 500000
      = some { unit := .Metric, depth := 83, rate := 10, air := 4990, edt := 0 } ∧
    (500000 : ℕ) ≠ 0 := by
  decide

/-- C3 amended: a `change_depth` call that leaves `depth > 0` increases
`edt` by the interval truncated to whole seconds (`interval / 1000000` for
the microsecond interval; sub-second ticks leave `edt` unchanged), a call
that leaves `depth = 0` leaves `edt` unchanged, `edt` never decreases, and
none of the other four operations touches `edt`, so over any operation
sequence `edt` is monotonically non-decreasing and advances only while
`depth > 0`. -/
theorem C3_edt_advance :
    (∀ (s : DiveComputer) (i : ℕ) (s1 : DiveComputer), s.change_depth i = some s1 →
      (0 < s1.depth → s1.edt = s.edt + i / 1000000) ∧
      (s1.depth = 0 → s1.edt = s.edt) ∧ s.edt ≤ s1.edt) ∧
    (∀ s : DiveComputer, s.fill_air.edt = s.edt ∧ s.increase_rate.edt = s.edt ∧
      s.decrease_rate.edt = s.edt ∧ s.toggle_unit.edt = s.edt) := by
  constructor
  · intro s i s1 h
    simp only [DiveComputer.change_depth] at h
    split_ifs at h with h0 h1 h2
    · rw [Option.some.injEq] at h
      subst h
      refine ⟨fun hpos => ?_, fun _ => rfl, le_refl _⟩
      simp only at hpos
      omega
    · rw [Option.some.injEq] at h
      subst h
      exact ⟨fun _ => rfl, fun hz => absurd hz h2, Nat.le_add_right _ _⟩
  · intro s
    refine ⟨?_, rfl, ?_, rfl⟩
    · simp only [DiveComputer.fill_air]
      split_ifs <;> rfl
    · simp only [DiveComputer.decrease_rate]
      split_ifs <;> rfl

/-- C3 amended witness: a full one-second tick at depth 5 m advances `edt`
by exactly one second. -/
theorem C3_edt_advance_witness :
    ({ unit := .Metric, depth := 5166, rate := 10, air := 4970, edt := 1 } :
        DiveComputer).edt
      = ({ unit := .Metric, depth := 5000, rate := 10, air := 5000, edt := 0 } :
        DiveComputer).edt + 1000000 / 1000000 :=
  (C3_edt_advance.1
    { unit := .Metric, depth := 5000, rate := 10, air := 5000, edt := 0 } 1000000
    { unit := .Metric, depth := 5166, rate := 10, air := 4970, edt := 1 }
    (by decide)).1 (by decide)

theorem reachable_bounds_aux (s : DiveComputer) (h : Reachable s) :
    0 ≤ s.depth ∧ s.depth ≤ 2 ^ 31 - 1 ∧ 0 ≤ s.air ∧ s.air ≤ 200000 := by
  induction h with
  | init => decide
  | fill h ih =>
    obtain ⟨hd0, hd1, ha0, ha1⟩ := ih
    simp only [DiveComputer.fill_air, MAX_AIR, AIR_INCREMENT]
    split_ifs <;> simp_all
    all_goals omega
  | inc h ih => exact ih
  | dec h ih =>
    obtain ⟨hd0, hd1, ha0, ha1⟩ := ih
    simp only [DiveComputer.decrease_rate]
    split_ifs <;> simp_all
  | toggle h ih => exact ih
  | tick h heq ih =>
    obtain ⟨hd0, hd1, ha0, ha1⟩ := ih
    simp only [DiveComputer.change_depth] at heq
    split_ifs at heq with h0 h1 h2
    · rw [Option.some.injEq] at heq
      subst heq
      refine ⟨le_max_left _ _, ?_, ha0, ha1⟩
      exact max_le (by norm_num) (min_le_right _ _)
    · rw [Option.some.injEq] at heq
      subst heq
      refine ⟨le_max_left _ _, max_le (by norm_num) (min_le_right _ _), le_max_right _ _, ?_⟩
      refine max_le ?_ (by norm_num)
      calc _ ≤ _ := sub_le_self _ (Int.natCast_nonneg _)
        _ ≤ 200000 := ha1

/-- C1: every state reachable from the initial state (unit Metric, depth 0,
rate 0, air 5000, edt 0) by any sequence of `fill_air`, `increase_rate`,
`decrease_rate`, `toggle_unit` and `change_depth` (with valid intervals)
satisfies `0 ≤ depth` and `0 ≤ air ≤ 200000`; the air arithmetic saturates
and never underflows below 0 nor overflows u32 (the fill increment stays
strictly under `2 ^ 32`). -/
theorem C1_reachable_invariant (s : DiveComputer) (h : Reachable s) :
    0 ≤ s.depth ∧ 0 ≤ s.air ∧ s.air ≤ 200000 ∧ s.air + 500 < 2 ^ 32 := by
  obtain ⟨hd0, _, ha0, ha1⟩ := reachable_bounds_aux s h
  exact ⟨hd0, ha0, ha1, by omega⟩

/-- C1 witness: the invariant instantiated at the state after one
`fill_air` from the initial state. -/
theorem C1_reachable_invariant_witness :
    0 ≤ DiveComputer.new.fill_air.depth ∧ 0 ≤ DiveComputer.new.fill_air.air ∧
    DiveComputer.new.fill_air.air ≤ 200000 ∧ DiveComputer.new.fill_air.air + 500 < 2 ^ 32 :=
  C1_reachable_invariant DiveComputer.new.fill_air (Reachable.fill Reachable.init)

def REPEAT_TIME : ℕ := 200000

def DEBOUNCE_TIME : ℕ := 100000

/-- One invocation of the button interrupt of `src/bin/interrupts.rs`: the
trigger timestamp (`timer.get_counter_low()`, microseconds) and the pending
`interrupt_status` flags (EdgeLow / LevelLow) of the four buttons. -/
structure ButtonEvent where
  time : ℕ
  aEdge : Bool := false
  aLevel : Bool := false
  bEdge : Bool := false
  bLevel : Bool := false
  xEdge : Bool := false
  xLevel : Bool := false
  yEdge : Bool := false
  yLevel : Bool := false
deriving DecidableEq, Repr

/-- The state the `IO_IRQ_BANK0` handler owns: the single `LAST_TRIGGERED`
timestamp shared by all four buttons, plus a count of the commands
dispatched per button (each dispatch being one call on the shared
`DiveComputer`). -/
structure SchedState where
  lastTriggered : ℕ
  aCount : ℕ
  bCount : ℕ
  xCount : ℕ
  yCount : ℕ
deriving DecidableEq, Repr

def initSched : SchedState :=
  { lastTriggered := 0, aCount := 0, bCount := 0, xCount := 0, yCount := 0 }

/-- The `handle_button!` macro body of `IO_IRQ_BANK0`: an EdgeLow trigger
fires its command iff `time_waited > DEBOUNCE_TIME`, otherwise a LevelLow
trigger fires iff `time_waited > REPEAT_TIME`; the hardware flag is cleared
either way. -/
def buttonFires (timeWaited : ℕ) (edge level : Bool) : Bool :=
  if edge then (if timeWaited > DEBOUNCE_TIME then true else false)
  else if level then (if timeWaited > REPEAT_TIME then true else false)
  else false

/-- `IO_IRQ_BANK0` of `src/bin/interrupts.rs` (same logic as
`button_handler` of `src/bin/rtic.rs`): `time_waited` is computed once
against the shared `LAST_TRIGGERED`, all four buttons are evaluated with it,
and `LAST_TRIGGERED` is updated to the trigger time iff any command
fired. -/
def ioIrqBank0 (st : SchedState) (ev : ButtonEvent) : SchedState :=
  let timeWaited := if ev.time ≤ st.lastTriggered then 0 else ev.time - st.lastTriggered
  let fa := buttonFires timeWaited ev.aEdge ev.aLevel
  let fb := buttonFires timeWaited ev.bEdge ev.bLevel
  let fx := buttonFires timeWaited ev.xEdge ev.xLevel
  let fy := buttonFires timeWaited ev.yEdge ev.yLevel
  let triggered := fa || fb || fx || fy
  { lastTriggered := if triggered then ev.time else st.lastTriggered,
    aCount := st.aCount + (if fa then 1 else 0),
    bCount := st.bCount + (if fb then 1 else 0),
    xCount := st.xCount + (if fx then 1 else 0),
    yCount := st.yCount + (if fy then 1 else 0) }

def runButtons (st : SchedState) (evs : List ButtonEvent) : SchedState :=
  evs.foldl ioIrqBank0 st

/-- An EdgeLow trigger on button A alone. -/
def edgeA (t : ℕ) : ButtonEvent := { time := t, aEdge := true }

/-- An EdgeLow trigger on button B alone. -/
def edgeB (t : ℕ) : ButtonEvent := { time := t, bEdge := true }

/-- C8 counterexample: two A edges at 200000 µs and 420000 µs are separated by
220000 µs, more than the 100000 µs debounce window, yet with a B edge
dispatched in between (at 350000 µs) button A dispatches only once instead of
twice — the debounce timestamp is shared across buttons, not per channel;
without the B edge the same two A edges dispatch twice. -/
theorem C8_counterexample :
    (runButtons initSched [edgeA 200000, edgeB 350000, edgeA 420000]).aCount = 1 ∧
    (runButtons initSched [edgeA 200000, edgeB 350000, edgeA 420000]).bCount = 1 ∧
    (runButtons initSched [edgeA 200000, edgeA 420000]).aCount = 2 ∧
    420000 - 200000 > DEBOUNCE_TIME := by
  decide

/-- C8 amended: debounce is tracked by the single `LAST_TRIGGERED` timestamp
shared by all button channels: an edge event on a button dispatches its
command iff more than the debounce window has elapsed since the last
dispatch on any button; consequently, in the absence of triggers on the
other buttons, two edge events on one button separated by more than the
window produce two dispatches and by less than the window exactly one. -/
theorem C8_amended_shared_debounce :
    (∀ (st : SchedState) (t : ℕ), (ioIrqBank0 st (edgeA t)).aCount =
      st.aCount +
        (if DEBOUNCE_TIME < (if t ≤ st.lastTriggered then 0 else t - st.lastTriggered)
         then 1 else 0)) ∧
    (∀ t1 t2 : ℕ, DEBOUNCE_TIME < t1 → t1 < t2 →
      (runButtons initSched [edgeA t1, edgeA t2]).aCount =
        if DEBOUNCE_TIME < t2 - t1 then 2 else 1) := by
  constructor
  · intro st t
    simp only [ioIrqBank0, buttonFires, edgeA, gt_iff_lt]
    split_ifs <;> simp_all
  · intro t1 t2 h1 h2
    have e1 : ioIrqBank0 initSched (edgeA t1) =
        { lastTriggered := t1, aCount := 1, bCount := 0, xCount := 0, yCount := 0 } := by
      simp [ioIrqBank0, buttonFires, edgeA, initSched, h1, Nat.not_le.mpr (by omega : 0 < t1)]
    have hn2 : ¬ t2 ≤ t1 := by omega
    show (ioIrqBank0 (ioIrqBank0 initSched (edgeA t1)) (edgeA t2)).aCount = _
    rw [e1]
    by_cases hw : DEBOUNCE_TIME < t2 - t1
    · rw [if_pos hw]
      simp [ioIrqBank0, buttonFires, edgeA, hn2, hw]
    · rw [if_neg hw]
      simp [ioIrqBank0, buttonFires, edgeA, hn2, hw]

/-- C8 amended witness: from startup, A edges at 200000 µs and 350000 µs are
150000 µs apart, more than the debounce window, and dispatch twice. -/
theorem C8_amended_shared_debounce_witness :
    (runButtons initSched [edgeA 200000, edgeA 350000]).aCount =
      if DEBOUNCE_TIME < 350000 - 200000 then 2 else 1 :=
  C8_amended_shared_debounce.2 200000 350000 (by decide) (by decide)

end DiveModel
